import Mathlib

/-!
# Verification of the dendritic-microcircuits simulation engine

This development embeds, in Lean 4, the parts of the repository needed to
settle the specification claims:

* the operation schedules of the training drivers
  (`src/ai/sacramento_main.py` and
  `src/ai/experiments/AndOrExperiment.py`), embedded as explicit traces of
  named layer operations;
* the `Layer` data model and its operations.  The file `ai/Layer.py` is a
  dependency of the repository that is not part of the provided sources,
  so every `Layer` operation below is modelled from the specification's
  description of it (each such definition carries a doc comment starting
  with `Modelled from the spec:`);
* the experiment bookkeeping of `AndOrExperiment`
  (`_hook_pre_train_step` / `_hook_post_train_step` / `run`);
* the delta-extraction pipeline of
  `src/metrics/visualization_metrics/neuronparse.py`.

All numeric state is modelled over `ℚ`; the Python code computes with
IEEE floats, but none of the claims settled through the numeric model
depends on rounding behaviour.
-/

namespace DMC

/-! ## Operation traces of the training drivers

The drivers in `sacramento_main.py` and `AndOrExperiment.py` are straight-line
sequences of layer-method calls.  We record those call sequences as lists of
labelled operations; each list below is a line-by-line transcription of the
corresponding Python function body.  The numeral identifies the layer the
method is called on (1 = input layer). -/

/-- A label for one layer-method call made by a driver function. -/
inductive NOp where
  /-- `layer.apply_inputs_to_test_self_predictive_convergence(...)` -/
  | applyInputs (layer : ℕ)
  /-- `layer.update_dend_mps_via_ip()` -/
  | updDendIP (layer : ℕ)
  /-- `layer.update_pyrs_basal_and_soma_ff(upstream)` -/
  | updBasalSomaFF (layer : ℕ)
  /-- `layer.update_pyrs_apical_soma_fb(downstream)` -/
  | updApicalFB (layer : ℕ)
  /-- `layer.adjust_wts_lat_pi()` -/
  | adjLatPI (layer : ℕ)
  /-- `layer.adjust_wts_pp_ff(upstream)` -/
  | adjFFPP (layer : ℕ)
  /-- `layer.nudge_output_layer_neurons(...)` -/
  | nudgeOut (layer : ℕ)
deriving DecidableEq, Repr

/-- `true` exactly on the weight-adjustment operations `adjust_wts_lat_pi`
and `adjust_wts_pp_ff`. -/
def NOp.isAdjust : NOp → Bool
  | .adjLatPI _ => true
  | .adjFFPP _ => true
  | _ => false

/-- Call sequence of `do_ff_sweep` (`sacramento_main.py`, lines 71-97):
`l1.apply_inputs...`, `l1.update_dend_mps_via_ip`,
`l2.update_pyrs_basal_and_soma_ff(l1)`, `l2.update_dend_mps_via_ip`,
`l3.update_pyrs_basal_and_soma_ff(l2)`. -/
def ffSweepTrace : List NOp :=
  [.applyInputs 1, .updDendIP 1, .updBasalSomaFF 2, .updDendIP 2,
   .updBasalSomaFF 3]

/-- Call sequence of `do_fb_sweep` (`sacramento_main.py`, lines 100-115):
`l2.update_pyrs_apical_soma_fb(l3)`, `l1.update_pyrs_apical_soma_fb(l2)`. -/
def fbSweepTrace : List NOp :=
  [.updApicalFB 2, .updApicalFB 1]

/-- Call sequence of `train_1_step_rule_16b_and_rule_13`
(`sacramento_main.py`, lines 161-185): `layer2.adjust_wts_lat_pi()`,
`layer3.adjust_wts_pp_ff(layer2)`, `layer1.adjust_wts_lat_pi()`,
`layer2.adjust_wts_pp_ff(layer1)`, then `do_ff_sweep`, then (iff the nudge
flag is set) `layer3.nudge_output_layer_neurons(...)`, then `do_fb_sweep`. -/
def trainStep16b13Trace (nudge : Bool) : List NOp :=
  [.adjLatPI 2, .adjFFPP 3, .adjLatPI 1, .adjFFPP 2]
    ++ ffSweepTrace
    ++ (if nudge then [.nudgeOut 3] else [])
    ++ fbSweepTrace

/-- Call sequence of `AndOrExperiment.__do_ff_sweep`
(`AndOrExperiment.py`, lines 43-48). -/
def andOrFFSweepTrace : List NOp :=
  [.applyInputs 1, .updDendIP 1, .updBasalSomaFF 2, .updDendIP 2]

/-- Call sequence of `AndOrExperiment.__do_fb_sweep`
(`AndOrExperiment.py`, lines 50-52). -/
def andOrFBSweepTrace : List NOp :=
  [.updApicalFB 1]

/-- Call sequence of `AndOrExperiment._train_1_step`
(`AndOrExperiment.py`, lines 89-97): `l1.adjust_wts_lat_pi()`,
`l2.adjust_wts_pp_ff(l1)`, then the FF sweep, then (iff the nudge flag is
set) `l2.nudge_output_layer_neurons(...)`, then the FB sweep. -/
def andOrTrainStepTrace (nudge : Bool) : List NOp :=
  [.adjLatPI 1, .adjFFPP 2]
    ++ andOrFFSweepTrace
    ++ (if nudge then [.nudgeOut 2] else [])
    ++ andOrFBSweepTrace

/-- The training-step schedules that claim C1 asserts for the three-layer
trainer: first the lateral adjustments of the two non-output layers (in
either order), then the feed-forward adjustments of the two non-input
layers (in either order), then the FF sweep, the optional nudge and the FB
sweep. -/
def c1ClaimedTraces (nudge : Bool) : List (List NOp) :=
  [[.adjLatPI 1, .adjLatPI 2, .adjFFPP 2, .adjFFPP 3],
   [.adjLatPI 1, .adjLatPI 2, .adjFFPP 3, .adjFFPP 2],
   [.adjLatPI 2, .adjLatPI 1, .adjFFPP 2, .adjFFPP 3],
   [.adjLatPI 2, .adjLatPI 1, .adjFFPP 3, .adjFFPP 2]].map
    (fun pre => pre ++ ffSweepTrace
      ++ (if nudge then [.nudgeOut 3] else []) ++ fbSweepTrace)

/-- The FF-sweep schedules that claim C2 asserts for the three-layer
network: `apply_inputs` on the input layer, then the basal/soma updates of
the downstream layers in layer order, then the inhibitory-plasticity
dendrite updates (in either order). -/
def c2ClaimedFFTraces : List (List NOp) :=
  [[.applyInputs 1, .updBasalSomaFF 2, .updBasalSomaFF 3,
    .updDendIP 1, .updDendIP 2],
   [.applyInputs 1, .updBasalSomaFF 2, .updBasalSomaFF 3,
    .updDendIP 2, .updDendIP 1]]

/-- The FF-sweep schedules that claim C2 asserts for the two-layer
AndOr network. -/
def c2ClaimedAndOrFFTraces : List (List NOp) :=
  [[.applyInputs 1, .updBasalSomaFF 2, .updDendIP 1, .updDendIP 2],
   [.applyInputs 1, .updBasalSomaFF 2, .updDendIP 2, .updDendIP 1]]

end DMC

namespace DMC

/-! ## The Layer data model

`ai/Layer.py` is a source file of this repository that is not among the
provided sources (only its callers are), so the definitions of this
section are modelled from the specification (§3, §4.1, §4.2, §7). -/

/-- Modelled from the spec: the error kinds of §7 (`ai/Layer.py` missing).
`DimensionMismatch`: an input vector or weight-matrix shape does not match
the expected neuron counts.  `InvalidLayerRole`: an operation was invoked
on a layer whose role does not permit it. -/
inductive Err where
  | dimensionMismatch
  | invalidLayerRole
deriving DecidableEq, Repr

/-- Modelled from the spec: pyramidal-neuron state (§3) — apical, basal
and somatic membrane potentials plus the somatic activation
(`ai/Layer.py` missing). -/
structure PyrNrn where
  apical_mp : ℚ
  basal_mp : ℚ
  soma_mp : ℚ
  soma_act : ℚ
deriving DecidableEq, Repr, Inhabited

/-- Modelled from the spec: inhibitory-interneuron state (§3) — dendritic
and somatic membrane potentials plus the somatic activation
(`ai/Layer.py` missing). -/
structure InhibNrn where
  dend_mp : ℚ
  soma_mp : ℚ
  soma_act : ℚ
deriving DecidableEq, Repr, Inhabited

/-- Modelled from the spec: a layer (§3) — ordered pyramidal and
inhibitory populations plus the four weight matrices (incoming FF,
incoming FB, lateral PI and lateral IP), each a list of rows
(`ai/Layer.py` missing). -/
structure Layer where
  id_num : ℕ
  pyrs : List PyrNrn
  inhibs : List InhibNrn
  W_ff : List (List ℚ)
  W_fb : List (List ℚ)
  W_pi : List (List ℚ)
  W_ip : List (List ℚ)
deriving DecidableEq, Repr, Inhabited

/-- The four weight matrices of a layer, bundled. -/
def weightsOf (l : Layer) :
    List (List ℚ) × List (List ℚ) × List (List ℚ) × List (List ℚ) :=
  (l.W_ff, l.W_fb, l.W_pi, l.W_ip)

/-- Modelled from the spec: the sigmoid-like squashing nonlinearity
bounded to `[0, 1]` (§4.1).  The exact transfer function lives in the
missing `ai/Layer.py`; no claim settled below depends on its shape. -/
def squash (x : ℚ) : ℚ := 1/2 + x / (2 * (1 + |x|))

/-- Weighted sum of a weight row against an activation vector. -/
def dot (w acts : List ℚ) : ℚ := (List.zipWith (· * ·) w acts).sum

/-- Modelled from the spec: `apply_inputs` (§4.2) — sets each pyramidal
neuron's basal potential directly from the stimulus vector, failing with
`DimensionMismatch` when the vector length differs from the pyramidal
count (`ai/Layer.py` missing; the Python method is
`apply_inputs_to_test_self_predictive_convergence`).  On failure no new
layer value is produced, so the caller's layer state is untouched. -/
def apply_inputs (stim : List ℚ) (l : Layer) : Except Err Layer :=
  if stim.length = l.pyrs.length then
    .ok { l with
          pyrs := List.zipWith (fun p v => { p with basal_mp := v }) l.pyrs stim }
  else .error .dimensionMismatch

/-- Modelled from the spec: `update_basal_and_soma_ff(upstream)` (§4.2) —
each pyramidal neuron's basal potential becomes the weighted sum of the
upstream layer's pyramidal somatic activations through the incoming FF
matrix, and the somatic state is re-derived through the nonlinearity
(`ai/Layer.py` missing; the soma combines basal and apical contributions
per §4.1). -/
def update_pyrs_basal_and_soma_ff (up l : Layer) : Layer :=
  { l with
    pyrs := l.pyrs.mapIdx (fun i p =>
      let b := dot (l.W_ff.getD i []) (up.pyrs.map (·.soma_act))
      let s := b + p.apical_mp
      { p with basal_mp := b, soma_mp := s, soma_act := squash s }) }

/-- Modelled from the spec: `update_dendrite_via_inhibitory_plasticity`
(§4.2) — each inhibitory neuron's dendritic potential becomes the
weighted sum of this layer's own pyramidal somatic activations through
the lateral IP matrix, and its somatic state is re-derived
(`ai/Layer.py` missing; the Python method is `update_dend_mps_via_ip`). -/
def update_dend_mps_via_ip (l : Layer) : Layer :=
  { l with
    inhibs := l.inhibs.mapIdx (fun j q =>
      let d := dot (l.W_ip.getD j []) (l.pyrs.map (·.soma_act))
      { q with dend_mp := d, soma_mp := d, soma_act := squash d }) }

/-- Modelled from the spec: `update_apical_and_soma_fb(downstream)` (§4.2)
— each pyramidal neuron's apical potential becomes the FB-weighted sum of
the downstream layer's pyramidal somatic activations minus the PI-weighted
sum of this layer's own inhibitory somatic activations, and the somatic
state is re-derived (`ai/Layer.py` missing; the Python method is
`update_pyrs_apical_soma_fb`). -/
def update_pyrs_apical_soma_fb (down l : Layer) : Layer :=
  { l with
    pyrs := l.pyrs.mapIdx (fun i p =>
      let a := dot (l.W_fb.getD i []) (down.pyrs.map (·.soma_act))
               - dot (l.W_pi.getD i []) (l.inhibs.map (·.soma_act))
      let s := p.basal_mp + a
      { p with apical_mp := a, soma_mp := s, soma_act := squash s }) }

/-- Modelled from the spec: the per-neuron blending step of
`nudge_output_layer` (§4.2) — each pyramidal somatic activation becomes
`(1-λ)*current + λ*target`; the target vector must match the pyramidal
count (§7 DimensionMismatch doctrine) (`ai/Layer.py` missing; the Python
method is `nudge_output_layer_neurons`). -/
def nudge_output_layer_neurons (targets : List ℚ) (lam : ℚ) (l : Layer) :
    Except Err Layer :=
  if targets.length = l.pyrs.length then
    .ok { l with
          pyrs := List.zipWith
            (fun p t => { p with soma_act := (1 - lam) * p.soma_act + lam * t })
            l.pyrs targets }
  else .error .dimensionMismatch

/-- Modelled from the spec: `nudge_output_layer` applied at network level
(§4.2, §7) — only valid on the terminal layer (last position, no
inhibitory neurons); any other target layer fails with
`InvalidLayerRole` (`ai/Layer.py` missing). -/
def nudge_output_layer (net : List Layer) (k : ℕ) (targets : List ℚ)
    (lam : ℚ) : Except Err (List Layer) :=
  if k + 1 = net.length ∧ (net.getD k default).inhibs = [] then
    (nudge_output_layer_neurons targets lam (net.getD k default)).map
      (fun lk => net.set k lk)
  else .error .invalidLayerRole

/-- The FF sweep of `do_ff_sweep` (`sacramento_main.py`, lines 71-97),
composed from the modelled layer operations in the source's call order.
The source's `apply_inputs_to_test_self_predictive_convergence()` uses a
fixed internal stimulus held in the missing `ai/Layer.py`; it is exposed
here as the `stim` argument. -/
def do_ff_sweep (stim : List ℚ) (l1 l2 l3 : Layer) :
    Except Err (Layer × Layer × Layer) := do
  let l1a ← apply_inputs stim l1
  let l1b := update_dend_mps_via_ip l1a
  let l2a := update_pyrs_basal_and_soma_ff l1b l2
  let l2b := update_dend_mps_via_ip l2a
  let l3a := update_pyrs_basal_and_soma_ff l2b l3
  return (l1b, l2b, l3a)

/-- The FB sweep of `do_fb_sweep` (`sacramento_main.py`, lines 100-115):
layer 2's apical update from layer 3, then layer 1's apical update from
the already-updated layer 2. -/
def do_fb_sweep (l1 l2 l3 : Layer) : Layer × Layer × Layer :=
  let l2a := update_pyrs_apical_soma_fb l3 l2
  let l1a := update_pyrs_apical_soma_fb l2a l1
  (l1a, l2a, l3)

/-- A concrete two-pyramid output layer used by the claim witnesses. -/
def c6L : Layer :=
  { id_num := 2, pyrs := [⟨0, 0, 0, 1/2⟩, ⟨0, 0, 0, 1/4⟩], inhibs := [],
    W_ff := [], W_fb := [], W_pi := [], W_ip := [] }

/-- The layer `c6L` after a full-strength (λ = 1) nudge toward the
targets `[1, 0]`. -/
def c6L1 : Layer :=
  { id_num := 2, pyrs := [⟨0, 0, 0, 1⟩, ⟨0, 0, 0, 0⟩], inhibs := [],
    W_ff := [], W_fb := [], W_pi := [], W_ip := [] }

/-- The layer `c6L` after `apply_inputs` with the stimulus `[3, 4]`. -/
def c7res : Layer :=
  { id_num := 2, pyrs := [⟨0, 3, 0, 1/2⟩, ⟨0, 4, 0, 1/4⟩], inhibs := [],
    W_ff := [], W_fb := [], W_pi := [], W_ip := [] }

end DMC

deriving instance DecidableEq for Except

namespace DMC.NeuronParse

/-! ## The delta-extraction pipeline of `neuronparse.py`

A direct embedding of `NeuronParser.__calculate_deltas`,
`NeuronParser.__zip_delta_array` and `NeuronParser.__list_of_arrays_to_delta`
(`src/metrics/visualization_metrics/neuronparse.py`), with Python runtime
errors made explicit in an `Except` result. -/

/-- Python runtime errors raised by the delta-extraction pipeline:
`IndexError` from an out-of-range list/array subscript, `ValueError` from
unpacking a sequence whose length does not match the target pattern. -/
inductive PyErr where
  | indexError
  | valueError
deriving DecidableEq, Repr

/-- Python subscript `l[i]`: raises `IndexError` when out of range. -/
def pyIdx {α : Type} (l : List α) (i : ℕ) : Except PyErr α :=
  if h : i < l.length then .ok l[i] else .error .indexError

/-- Sequential mapping with error propagation, mirroring a Python `for`
loop that appends to an accumulator and lets the first raised exception
escape. -/
def mapE {α β : Type} (f : α → Except PyErr β) :
    List α → Except PyErr (List β)
  | [] => .ok []
  | a :: as => do
    let b ← f a
    let bs ← mapE f as
    return b :: bs

/-- The parse mode of `neuronparse.py`: `p` (pyramidal) or `i`
(interneuron). -/
inductive Mode where
  | p
  | i
deriving DecidableEq, Repr

/-- `neuron_data_length` chosen by `__calculate_deltas` from the mode
(lines 108-111): 5 for pyramidal data, 4 for interneuron data. -/
def Mode.neuronDataLength : Mode → ℕ
  | .p => 5
  | .i => 4

/-- The inner loop of `__calculate_deltas` (lines 114-123), walking the
current array with its enumeration index: index 0 (the layer number) is
dropped; at positions with `(index - 1) % neuron_data_length == 0` (the
neuron ids) the value itself is kept; every other position records
`previous_array[index] - value`, raising `IndexError` when the previous
array is too short.  The first argument of the recursion is `index - 1`
shifted by the initial skip. -/
def deltaRowAux (prev : List ℚ) (ndl : ℕ) : ℕ → List ℚ → Except PyErr (List ℚ)
  | _, [] => .ok []
  | 0, _ :: rest => deltaRowAux prev ndl 1 rest
  | i + 1, v :: rest =>
    if i % ndl = 0 then do
      let r ← deltaRowAux prev ndl (i + 2) rest
      return v :: r
    else do
      let pv ← pyIdx prev (i + 1)
      let r ← deltaRowAux prev ndl (i + 2) rest
      return (pv - v) :: r

/-- The outer loop of `__calculate_deltas` (lines 112-125):
`previous_array` starts as the first array of the layer and is replaced by
the current array after each delta row. -/
def calcDeltasGo (ndl : ℕ) :
    List ℚ → List (List ℚ) → Except PyErr (List (List ℚ))
  | _, [] => .ok []
  | prev, cur :: rest => do
    let d ← deltaRowAux prev ndl 0 cur
    let ds ← calcDeltasGo ndl cur rest
    return d :: ds

/-- `__calculate_deltas(list_of_arrays, mode)` (lines 102-125).  An empty
per-layer list raises `IndexError` at `previous_array = list_of_arrays[0]`. -/
def calculate_deltas (mode : Mode) (rows : List (List ℚ)) :
    Except PyErr (List (List ℚ)) :=
  match rows with
  | [] => .error .indexError
  | r0 :: _ => calcDeltasGo mode.neuronDataLength r0 rows

/-- `__zip_delta_array(num_layers, delta_array)` (lines 167-173): emits
`delta_array[i % num_layers][i // num_layers]` for each
`i < len(delta_array[0]) * num_layers`; evaluating `len(delta_array[0])`
on an empty list raises `IndexError`. -/
def zip_delta_array (numLayers : ℕ)
    (deltaArray : List (List (List ℚ))) : Except PyErr (List (List ℚ)) :=
  match deltaArray with
  | [] => .error .indexError
  | d0 :: _ =>
    mapE (fun i => do
        let layer ← pyIdx deltaArray (i % numLayers)
        pyIdx layer (i / numLayers))
      (List.range (d0.length * numLayers))

/-- The tuple unpacking at line 188 of `neuronparse.py`
(`zipped_delta_array, num_layers = self.__zip_delta_array(...)`): Python
unpacking of a list into two targets succeeds exactly when the list has
length 2 and raises `ValueError` otherwise. -/
def unpackPair {α : Type} : List α → Except PyErr (α × α)
  | [a, b] => .ok (a, b)
  | _ => .error .valueError

/-- `__list_of_arrays_to_delta` (lines 175-195) up to and including the
two-target tuple unpacking of the zipped delta list.  The JSON output
file is written strictly after this point in the source, so an error
raised here means no JSON file is written. -/
def list_of_arrays_to_delta (mode : Mode)
    (listOfArrays : List (List (List ℚ))) :
    Except PyErr (List ℚ × List ℚ) := do
  let deltaArray ← mapE (calculate_deltas mode) listOfArrays
  let z ← zip_delta_array listOfArrays.length deltaArray
  unpackPair z

end DMC.NeuronParse

namespace DMC

/-! ## The AndOr experiment model

`AndOrExperiment.run` drives a two-layer network built by
`build_small_two_layer_network` (from the base class
`ai/experiments/Experiment.py`, a source file of this repository that is
not among the provided sources) through `self_prediction_steps` un-nudged
training steps, one output nudge, and `training_steps` nudged steps, with
a pre-hook and post-hook around every step.  The hooks and
`_train_1_step` are transcribed from `AndOrExperiment.py`; the base-class
train loop, the network builder and the random generator are modelled
from the spec. -/

/-- Modelled from the spec: the seeded pseudo-random generator of §5.
`numpy.random.default_rng` is an external dependency; it is modelled by a
small deterministic linear congruential generator.  The claims settled on
this model depend only on the generator being a deterministic function of
its seed. -/
def lcg (s : ℕ) : ℕ := (75 * s + 74) % 65537

/-- The four training inputs `_X` of `AndOrExperiment` (line 27). -/
def andOrX : List (List ℚ) := [[0, 0], [0, 1], [1, 0], [1, 1]]

/-- The four label vectors `_Y` = {AND, OR, XOR} of `AndOrExperiment`
(line 28). -/
def andOrY : List (List ℚ) :=
  [[0, 0, 0], [0, 1, 1], [0, 1, 1], [1, 1, 0]]

/-- The bookkeeping state of `AndOrExperiment`: the step counter
`_current_step`, the recorded nudge-annotation positions `_nudge_steps`,
the per-sample record counts (the lengths
`len(_metrics[KEY_LAYER_1][i][0])` maintained by the post-train hook),
the label-RNG state and the currently drawn sample index. -/
structure Book where
  currentStep : ℕ
  nudgeSteps : List ℕ
  counts : List ℕ
  rngState : ℕ
  currentXIndex : ℕ
deriving DecidableEq, Repr

/-- The initial bookkeeping (lines 30-36): step 0, nudge positions
`[0, 0, 0, 0]`, no recorded columns, RNG seeded with `label_init_seed`. -/
def initBook (labelSeed : ℕ) : Book :=
  { currentStep := 0, nudgeSteps := [0, 0, 0, 0], counts := [0, 0, 0, 0],
    rngState := labelSeed, currentXIndex := 0 }

/-- `_hook_pre_train_step` (`AndOrExperiment.py`, lines 58-65): increment
the step counter; when the counter equals the hard-coded constant 400,
copy the current per-sample record counts into `_nudge_steps`; then draw
the next sample index from the label RNG. -/
def bookPreHook (b : Book) : Book :=
  let step := b.currentStep + 1
  let ns := if step = 400 then b.counts else b.nudgeSteps
  let r := lcg b.rngState
  { currentStep := step, nudgeSteps := ns, counts := b.counts,
    rngState := r, currentXIndex := r % 4 }

/-- `_hook_post_train_step` (`AndOrExperiment.py`, lines 67-87): appending
one column to each metric of the drawn sample increments that sample's
record count. -/
def bookPostHook (b : Book) : Book :=
  { b with
    counts := b.counts.set b.currentXIndex
      (b.counts.getD b.currentXIndex 0 + 1) }

/-- One hook pair around a training step; the step itself does not touch
the bookkeeping. -/
def bookStep (b : Book) : Book := bookPostHook (bookPreHook b)

/-- Modelled from the spec: the learning rate of the local update rules;
the exact constant lives in the missing `ai/Layer.py` / `ai/config.py`. -/
def lr : ℚ := 1 / 10

/-- Modelled from the spec: `adjust_lateral_weights` (§4.2) — a local
Hebbian-style update of the lateral PI and IP matrices driven by the
discrepancy between inhibitory activity and pyramidal activity, pushing
the layer toward the self-predictive fixed point.  The exact formula
lives in the missing `ai/Layer.py`; the claims settled on this model
depend only on it being a deterministic function of the layer state that
touches only `W_pi` and `W_ip`. -/
def adjust_wts_lat_pi (l : Layer) : Layer :=
  { l with
    W_pi := l.W_pi.mapIdx (fun i row => row.mapIdx (fun j w =>
      w - lr * (l.pyrs.getD i default).apical_mp
          * (l.inhibs.getD j default).soma_act)),
    W_ip := l.W_ip.mapIdx (fun j row => row.mapIdx (fun k w =>
      w + lr * ((l.pyrs.getD k default).soma_act
            - squash (l.inhibs.getD j default).dend_mp)
          * (l.pyrs.getD k default).soma_act)) }

/-- Modelled from the spec: `adjust_ff_weights(upstream)` (§4.2) — a
local update of the incoming FF matrix comparing postsynaptic somatic
activation with the prediction implied by the basal potential, scaled by
the upstream activation (learning rule 13).  The exact formula lives in
the missing `ai/Layer.py`; the claims settled on this model depend only
on it being a deterministic function of the two layers that touches only
`W_ff`. -/
def adjust_wts_pp_ff (up l : Layer) : Layer :=
  { l with
    W_ff := l.W_ff.mapIdx (fun i row => row.mapIdx (fun j w =>
      w + lr * ((l.pyrs.getD i default).soma_act
            - squash (l.pyrs.getD i default).basal_mp)
          * (up.pyrs.getD j default).soma_act)) }

/-- Draw one rational weight from the modelled generator, returning the
weight and the advanced generator state. -/
def genQ (r : ℕ) : ℚ × ℕ :=
  let r2 := lcg r
  (((r2 % 200 : ℕ) : ℚ) / 100 - 1, r2)

/-- Draw a row of `n` weights. -/
def genRow : ℕ → ℕ → List ℚ × ℕ
  | 0, r => ([], r)
  | n + 1, r =>
    let p := genQ r
    let ps := genRow n p.2
    (p.1 :: ps.1, ps.2)

/-- Draw an `m × n` weight matrix. -/
def genMat : ℕ → ℕ → ℕ → List (List ℚ) × ℕ
  | 0, _, r => ([], r)
  | m + 1, n, r =>
    let row := genRow n r
    let rows := genMat m n row.2
    (row.1 :: rows.1, rows.2)

/-- A fresh pyramidal neuron at network build time. -/
def initPyr : PyrNrn := ⟨0, 0, 0, 0⟩

/-- A fresh interneuron at network build time. -/
def initInhib : InhibNrn := ⟨0, 0, 0⟩

/-- Modelled from the spec: `build_small_two_layer_network(2, 3)` invoked
by `AndOrExperiment.build_network` (lines 143-144) — a 2-pyramid input
layer with one interneuron and a 3-pyramid output layer without
interneurons, every weight matrix drawn from the generator seeded with
the weight-initialization seed (`ai/experiments/Experiment.py` missing). -/
def build_small_two_layer_network (wtSeed : ℕ) : Layer × Layer :=
  let wfb1 := genMat 2 3 wtSeed
  let wpi1 := genMat 2 1 wfb1.2
  let wip1 := genMat 1 2 wpi1.2
  let wff2 := genMat 3 2 wip1.2
  ({ id_num := 1, pyrs := [initPyr, initPyr], inhibs := [initInhib],
     W_ff := [], W_fb := wfb1.1, W_pi := wpi1.1, W_ip := wip1.1 },
   { id_num := 2, pyrs := [initPyr, initPyr, initPyr], inhibs := [],
     W_ff := wff2.1, W_fb := [], W_pi := [], W_ip := [] })

/-- `apply_inputs` as used inside the experiment model, where the
stimulus length matches the pyramidal count by construction. -/
def apply_inputs_total (stim : List ℚ) (l : Layer) : Layer :=
  { l with
    pyrs := List.zipWith (fun p v => { p with basal_mp := v }) l.pyrs stim }

/-- The nudge blend as used inside the experiment model, where the target
length matches the pyramidal count by construction. -/
def nudge_neurons_total (targets : List ℚ) (lam : ℚ) (l : Layer) : Layer :=
  { l with
    pyrs := List.zipWith
      (fun p t => { p with soma_act := (1 - lam) * p.soma_act + lam * t })
      l.pyrs targets }

/-- The full observable state of one `AndOrExperiment` run: the two
layers (holding the weight matrices), the bookkeeping, and the per-step
record log (drawn sample index — which determines the input and the
label — then the layer-1 apical potentials and the output somatic
potentials recorded by the post-train hook). -/
structure ExpState where
  l1 : Layer
  l2 : Layer
  book : Book
  log : List (ℕ × List ℚ × List ℚ)
deriving DecidableEq, Repr

/-- Modelled from the spec: the initial experiment state —
`build_network` plus fresh hook bookkeeping
(`ai/experiments/Experiment.py` missing). -/
def initExpState (wtSeed labelSeed : ℕ) : ExpState :=
  let net := build_small_two_layer_network wtSeed
  { l1 := net.1, l2 := net.2, book := initBook labelSeed, log := [] }

/-- `AndOrExperiment._train_1_step` (lines 89-97) on the current sample:
lateral adjustment on layer 1, FF adjustment into layer 2, the FF sweep
on the current input, the optional nudge with λ = 0.8 toward the current
label, and the FB sweep. -/
def train_1_step (nudge : Bool) (x lab : List ℚ) (l1 l2 : Layer) :
    Layer × Layer :=
  let l1a := adjust_wts_lat_pi l1
  let l2a := adjust_wts_pp_ff l1a l2
  let l1b := update_dend_mps_via_ip (apply_inputs_total x l1a)
  let l2b := update_dend_mps_via_ip (update_pyrs_basal_and_soma_ff l1b l2a)
  let l2c := if nudge then nudge_neurons_total lab (8/10) l2b else l2b
  let l1c := update_pyrs_apical_soma_fb l2c l1b
  (l1c, l2c)

/-- Modelled from the spec: one step of the base-class train loop —
pre-hook, `_train_1_step`, post-hook (`ai/experiments/Experiment.py`
missing; the hook bodies are transcribed from `AndOrExperiment.py`,
lines 58-87). -/
def expStep (nudge : Bool) (s : ExpState) : ExpState :=
  let b1 := bookPreHook s.book
  let x := andOrX.getD b1.currentXIndex []
  let lab := andOrY.getD b1.currentXIndex []
  let net := train_1_step nudge x lab s.l1 s.l2
  { l1 := net.1, l2 := net.2, book := bookPostHook b1,
    log := s.log ++ [(b1.currentXIndex, net.1.pyrs.map (·.apical_mp),
      net.2.pyrs.map (·.soma_mp))] }

/-- `AndOrExperiment.__nudge_output_layer` (lines 54-56): nudge the
output layer toward the current label (default strength, modelled as
0.8) and do an FB sweep.  The bookkeeping is untouched. -/
def expNudgeOutput (s : ExpState) : ExpState :=
  let lab := andOrY.getD s.book.currentXIndex []
  let l2 := nudge_neurons_total lab (8/10) s.l2
  { s with l2 := l2, l1 := update_pyrs_apical_soma_fb l2 s.l1 }

/-- `AndOrExperiment.run` (lines 154-157): `self_prediction_steps`
un-nudged steps, one output nudge, then `training_steps` nudged steps. -/
def runAndOr (wtSeed labelSeed sps ts : ℕ) : ExpState :=
  (expStep true)^[ts]
    (expNudgeOutput ((expStep false)^[sps] (initExpState wtSeed labelSeed)))

/-- The bookkeeping of a run evolves by `sps + ts` hook pairs. -/
def runBook (labelSeed sps ts : ℕ) : Book :=
  bookStep^[sps + ts] (initBook labelSeed)

/-- The per-sample record counts after `m` completed training steps; for
a run with `self_prediction_steps = m` these are the positions at which
nudging actually begins in the recorded series. -/
def countsAfter (labelSeed m : ℕ) : List ℕ :=
  (bookStep^[m] (initBook labelSeed)).counts

end DMC

namespace DMC

/-- C1 (counterexample): in `train_1_step_rule_16b_and_rule_13` the weight
adjustments are interleaved — the FF adjustment of the output layer
(`layer3.adjust_wts_pp_ff(layer2)`) runs before the lateral adjustment of
layer 1 — so the call sequence matches none of the schedules the claim
asserts (all lateral adjustments first, then all FF adjustments), for
either value of the nudge flag. -/
theorem c1_counterexample :
    trainStep16b13Trace false ∉ c1ClaimedTraces false ∧
    trainStep16b13Trace true ∉ c1ClaimedTraces true := by
  decide

/-- C1 (amended): every training step of the three-layer trainer
`train_1_step_rule_16b_and_rule_13` performs its four weight adjustments
interleaved by layer pair — lateral on layer 2, FF into layer 3, lateral
on layer 1, FF into layer 2 — and all four complete before either sweep
begins (no adjustment occurs after position 4 of the trace); then the full
FF sweep, then (iff the nudge flag is set) output-layer nudging, then the
full FB sweep.  The two-layer AndOr trainer `_train_1_step` performs
lateral adjustment on its non-output layer, then FF adjustment on its
non-input layer, exactly as claimed, before its FF sweep, optional nudge
and FB sweep. -/
theorem c1_theorem :
    ((trainStep16b13Trace false).take 4
        = [.adjLatPI 2, .adjFFPP 3, .adjLatPI 1, .adjFFPP 2] ∧
      (trainStep16b13Trace false).drop 4 = ffSweepTrace ++ fbSweepTrace ∧
      ((trainStep16b13Trace false).drop 4).all (fun op => !op.isAdjust) = true) ∧
    ((trainStep16b13Trace true).take 4
        = [.adjLatPI 2, .adjFFPP 3, .adjLatPI 1, .adjFFPP 2] ∧
      (trainStep16b13Trace true).drop 4
        = ffSweepTrace ++ [.nudgeOut 3] ++ fbSweepTrace ∧
      ((trainStep16b13Trace true).drop 4).all (fun op => !op.isAdjust) = true) ∧
    (andOrTrainStepTrace false
        = [.adjLatPI 1, .adjFFPP 2] ++ andOrFFSweepTrace ++ andOrFBSweepTrace) ∧
    (andOrTrainStepTrace true
        = [.adjLatPI 1, .adjFFPP 2] ++ andOrFFSweepTrace
          ++ [.nudgeOut 2] ++ andOrFBSweepTrace) := by
  decide

/-- C2 (counterexample): in `do_ff_sweep` the inhibitory-plasticity
dendrite update of layer 1 (`l1.update_dend_mps_via_ip()`) runs before the
basal/soma update of layer 2, so the sweep's call sequence matches neither
of the orders asserted by the claim (all basal/soma updates before the
dendrite updates); likewise for the two-layer AndOr sweep. -/
theorem c2_counterexample :
    ffSweepTrace ∉ c2ClaimedFFTraces ∧
    andOrFFSweepTrace ∉ c2ClaimedAndOrFFTraces := by
  decide

/-- C2 (amended): within the FF sweep, `apply_inputs` comes first and the
basal/soma updates occur in increasing layer order, but each layer's
inhibitory-plasticity dendrite update immediately follows that same
layer's own update (layer 1's follows `apply_inputs`, layer 2's follows
layer 2's basal/soma update) rather than all dendrite updates coming after
all basal/soma updates.  The FB sweep applies the apical updates from the
topmost layer downward.  In every learning step of both trainers the FF
sweep wholly precedes the FB sweep, and output nudging (present iff the
nudge flag is set) occurs strictly between the two sweeps. -/
theorem c2_theorem :
    (ffSweepTrace.indexOf (.applyInputs 1) = 0 ∧
      ffSweepTrace.indexOf (.updDendIP 1) = 1 ∧
      ffSweepTrace.indexOf (.updBasalSomaFF 2) = 2 ∧
      ffSweepTrace.indexOf (.updDendIP 2) = 3 ∧
      ffSweepTrace.indexOf (.updBasalSomaFF 3) = 4) ∧
    (fbSweepTrace = [.updApicalFB 2, .updApicalFB 1]) ∧
    (andOrFFSweepTrace
        = [.applyInputs 1, .updDendIP 1, .updBasalSomaFF 2, .updDendIP 2] ∧
      andOrFBSweepTrace = [.updApicalFB 1]) ∧
    (trainStep16b13Trace true
        = [.adjLatPI 2, .adjFFPP 3, .adjLatPI 1, .adjFFPP 2]
          ++ ffSweepTrace ++ [.nudgeOut 3] ++ fbSweepTrace ∧
      trainStep16b13Trace false
        = [.adjLatPI 2, .adjFFPP 3, .adjLatPI 1, .adjFFPP 2]
          ++ ffSweepTrace ++ fbSweepTrace) ∧
    (andOrTrainStepTrace true
        = [.adjLatPI 1, .adjFFPP 2] ++ andOrFFSweepTrace
          ++ [.nudgeOut 2] ++ andOrFBSweepTrace ∧
      andOrTrainStepTrace false
        = [.adjLatPI 1, .adjFFPP 2] ++ andOrFFSweepTrace
          ++ andOrFBSweepTrace) := by
  decide

end DMC

namespace DMC

/-! ## Helper lemmas about the modelled layer operations -/

/-- Mapping a basal-insensitive projection over the `apply_inputs` update
recovers the projection of the original neurons. -/
theorem zipWith_setBasal_map (g : PyrNrn → ℚ)
    (hg : ∀ p v, g { p with basal_mp := v } = g p) :
    ∀ (ps : List PyrNrn) (vs : List ℚ), vs.length = ps.length →
      (List.zipWith (fun p v => { p with basal_mp := v }) ps vs).map g
        = ps.map g
  | [], [], _ => rfl
  | [], _ :: _, h => by simp at h
  | _ :: _, [], h => by simp at h
  | p :: ps, v :: vs, h => by
    simp only [List.zipWith_cons_cons, List.map_cons, hg]
    have h' : vs.length = ps.length := by simpa using h
    rw [zipWith_setBasal_map g hg ps vs h']

/-- The basal potentials written by `apply_inputs` are exactly the
stimulus vector. -/
theorem zipWith_setBasal_map_basal :
    ∀ (ps : List PyrNrn) (vs : List ℚ), vs.length = ps.length →
      (List.zipWith (fun p v => { p with basal_mp := v }) ps vs).map
          (·.basal_mp) = vs
  | [], [], _ => rfl
  | [], _ :: _, h => by simp at h
  | _ :: _, [], h => by simp at h
  | p :: ps, v :: vs, h => by
    simp only [List.zipWith_cons_cons, List.map_cons]
    have h' : vs.length = ps.length := by simpa using h
    rw [zipWith_setBasal_map_basal ps vs h']

/-- Somatic activations after the nudge blend are the pointwise blend of
the previous activations with the targets. -/
theorem map_somaAct_zipWith_blend (lam : ℚ) :
    ∀ (ps : List PyrNrn) (ts : List ℚ),
      (List.zipWith
        (fun p t => { p with soma_act := (1 - lam) * p.soma_act + lam * t })
        ps ts).map (·.soma_act)
        = List.zipWith (fun c t => (1 - lam) * c + lam * t)
            (ps.map (·.soma_act)) ts
  | [], _ => by simp
  | _ :: _, [] => by simp
  | p :: ps, t :: ts => by
    simp only [List.zipWith_cons_cons, List.map_cons]
    rw [map_somaAct_zipWith_blend lam ps ts]

/-- The nudge blend with strength 0 leaves every neuron unchanged. -/
theorem zipWith_blend_zero :
    ∀ (ps : List PyrNrn) (ts : List ℚ), ts.length = ps.length →
      List.zipWith
        (fun p t => { p with soma_act := (1 - (0:ℚ)) * p.soma_act + 0 * t })
        ps ts = ps
  | [], [], _ => rfl
  | [], _ :: _, h => by simp at h
  | _ :: _, [], h => by simp at h
  | p :: ps, t :: ts, h => by
    have h' : ts.length = ps.length := by simpa using h
    simp only [List.zipWith_cons_cons, zipWith_blend_zero ps ts h']
    congr 1
    cases p with
    | mk a b s c => simp

/-- The pointwise blend with strength 1 returns the target vector. -/
theorem zipWith_blend_one :
    ∀ (cs ts : List ℚ), ts.length = cs.length →
      List.zipWith (fun c t => (1 - (1:ℚ)) * c + 1 * t) cs ts = ts
  | [], [], _ => rfl
  | [], _ :: _, h => by simp at h
  | _ :: _, [], h => by simp at h
  | c :: cs, t :: ts, h => by
    have h' : ts.length = cs.length := by simpa using h
    simp only [List.zipWith_cons_cons, zipWith_blend_one cs ts h']
    congr 1
    ring

end DMC

namespace DMC

/-- C5: no FF-sweep or FB-sweep operation mutates any weight matrix: the
three per-layer update operations preserve all four weight matrices of
their layer, `apply_inputs` preserves them whenever it succeeds, and the
driver compositions `do_ff_sweep` / `do_fb_sweep` preserve the weight
matrices of all three layers. -/
theorem c5_theorem :
    (∀ up l, weightsOf (update_pyrs_basal_and_soma_ff up l) = weightsOf l) ∧
    (∀ l, weightsOf (update_dend_mps_via_ip l) = weightsOf l) ∧
    (∀ down l, weightsOf (update_pyrs_apical_soma_fb down l) = weightsOf l) ∧
    (∀ stim l, (apply_inputs stim l).map weightsOf
        = (apply_inputs stim l).map (fun _ => weightsOf l)) ∧
    (∀ stim l1 l2 l3,
      (do_ff_sweep stim l1 l2 l3).map
          (fun t => (weightsOf t.1, weightsOf t.2.1, weightsOf t.2.2))
        = (do_ff_sweep stim l1 l2 l3).map
            (fun _ => (weightsOf l1, weightsOf l2, weightsOf l3))) ∧
    (∀ l1 l2 l3,
      (weightsOf (do_fb_sweep l1 l2 l3).1,
       weightsOf (do_fb_sweep l1 l2 l3).2.1,
       weightsOf (do_fb_sweep l1 l2 l3).2.2)
        = (weightsOf l1, weightsOf l2, weightsOf l3)) := by
  refine ⟨fun up l => rfl, fun l => rfl, fun down l => rfl, ?_, ?_, fun l1 l2 l3 => rfl⟩
  · intro stim l
    unfold apply_inputs
    split <;> rfl
  · intro stim l1 l2 l3
    unfold do_ff_sweep apply_inputs
    split <;> rfl

end DMC

namespace DMC

/-- C6: on success, `nudge_output_layer_neurons` sets each pyramidal
somatic activation to `(1-λ)*current + λ*target`; with λ = 0 the whole
layer is unchanged; with λ = 1 each activation equals its target exactly;
and the network-level `nudge_output_layer` fails with `InvalidLayerRole`
on every non-terminal layer position. -/
theorem c6_theorem :
    (∀ (l : Layer) (targets : List ℚ) (lam : ℚ) (lres : Layer),
      nudge_output_layer_neurons targets lam l = .ok lres →
        lres.pyrs.map (·.soma_act)
          = List.zipWith (fun c t => (1 - lam) * c + lam * t)
              (l.pyrs.map (·.soma_act)) targets) ∧
    (∀ (l : Layer) (targets : List ℚ) (lres : Layer),
      nudge_output_layer_neurons targets 0 l = .ok lres → lres = l) ∧
    (∀ (l : Layer) (targets : List ℚ) (lres : Layer),
      nudge_output_layer_neurons targets 1 l = .ok lres →
        lres.pyrs.map (·.soma_act) = targets) ∧
    (∀ (net : List Layer) (k : ℕ) (targets : List ℚ) (lam : ℚ),
      k + 1 ≠ net.length →
        nudge_output_layer net k targets lam = .error .invalidLayerRole) := by
  refine ⟨?_, ?_, ?_, ?_⟩
  · intro l targets lam lres h
    unfold nudge_output_layer_neurons at h
    split at h
    · cases h
      exact map_somaAct_zipWith_blend lam l.pyrs targets
    · cases h
  · intro l targets lres h
    unfold nudge_output_layer_neurons at h
    split at h
    next hc =>
      cases h
      rw [zipWith_blend_zero l.pyrs targets hc]
    · cases h
  · intro l targets lres h
    unfold nudge_output_layer_neurons at h
    split at h
    next hc =>
      cases h
      rw [map_somaAct_zipWith_blend 1 l.pyrs targets,
        zipWith_blend_one (l.pyrs.map (·.soma_act)) targets (by simpa using hc)]
    · cases h
  · intro net k targets lam h
    unfold nudge_output_layer
    rw [if_neg (fun hc => h hc.1)]

/-- C6 (witness): the λ = 0 nudge of the concrete layer `c6L` toward
`[1, 0]` succeeds and returns `c6L` itself; the λ = 1 nudge returns a
layer whose activations are exactly `[1, 0]`; nudging position 0 of a
two-layer network is rejected with `InvalidLayerRole`. -/
theorem c6_witness :
    c6L = c6L ∧
    c6L1.pyrs.map (·.soma_act) = [1, 0] ∧
    nudge_output_layer [c6L, c6L] 0 [1, 0] (8/10)
      = .error .invalidLayerRole :=
  ⟨c6_theorem.2.1 c6L [1, 0] c6L (by simp [nudge_output_layer_neurons, c6L]),
   c6_theorem.2.2.1 c6L [1, 0] c6L1
     (by simp [nudge_output_layer_neurons, c6L, c6L1]),
   c6_theorem.2.2.2 [c6L, c6L] 0 [1, 0] (8/10) (by decide)⟩

/-- C7: `apply_inputs` with a stimulus vector whose length differs from
the pyramidal count fails with `DimensionMismatch` (producing no modified
layer, so the caller's state is untouched); with a matching vector it
succeeds, writing exactly the stimulus into the basal potentials and
leaving every other component of the layer — apical, somatic and
activation values, inhibitory neurons, all four weight matrices and the
layer id — unmodified. -/
theorem c7_theorem :
    (∀ (stim : List ℚ) (l : Layer), stim.length ≠ l.pyrs.length →
      apply_inputs stim l = .error .dimensionMismatch) ∧
    (∀ (stim : List ℚ) (l lres : Layer), apply_inputs stim l = .ok lres →
      lres.pyrs.map (·.basal_mp) = stim ∧
      lres.pyrs.map (·.apical_mp) = l.pyrs.map (·.apical_mp) ∧
      lres.pyrs.map (·.soma_mp) = l.pyrs.map (·.soma_mp) ∧
      lres.pyrs.map (·.soma_act) = l.pyrs.map (·.soma_act) ∧
      lres.inhibs = l.inhibs ∧
      weightsOf lres = weightsOf l ∧
      lres.id_num = l.id_num) := by
  constructor
  · intro stim l h
    unfold apply_inputs
    rw [if_neg h]
  · intro stim l lres h
    unfold apply_inputs at h
    split at h
    next hc =>
      cases h
      refine ⟨zipWith_setBasal_map_basal l.pyrs stim hc, ?_, ?_, ?_, rfl, rfl, rfl⟩
      · exact zipWith_setBasal_map (·.apical_mp) (fun p v => rfl) l.pyrs stim hc
      · exact zipWith_setBasal_map (·.soma_mp) (fun p v => rfl) l.pyrs stim hc
      · exact zipWith_setBasal_map (·.soma_act) (fun p v => rfl) l.pyrs stim hc
    · cases h

/-- C7 (witness): on the concrete two-pyramid layer `c6L`, the
length-1 stimulus `[1]` is rejected with `DimensionMismatch`, and the
length-2 stimulus `[3, 4]` succeeds, yielding `c7res`: basal potentials
`[3, 4]` with every other component unchanged. -/
theorem c7_witness :
    apply_inputs [1] c6L = .error .dimensionMismatch ∧
    (c7res.pyrs.map (·.basal_mp) = [3, 4] ∧
     c7res.pyrs.map (·.apical_mp) = c6L.pyrs.map (·.apical_mp) ∧
     c7res.pyrs.map (·.soma_mp) = c6L.pyrs.map (·.soma_mp) ∧
     c7res.pyrs.map (·.soma_act) = c6L.pyrs.map (·.soma_act) ∧
     c7res.inhibs = c6L.inhibs ∧
     weightsOf c7res = weightsOf c6L ∧
     c7res.id_num = c6L.id_num) :=
  ⟨c7_theorem.1 [1] c6L (by decide),
   c7_theorem.2 [3, 4] c6L c7res (by simp [apply_inputs, c6L, c7res])⟩

end DMC

namespace DMC.NeuronParse

/-- Bind on a successful `Except` applies the continuation. -/
theorem exceptBind_ok {α β : Type} (x : α) (f : α → Except PyErr β) :
    (Except.ok x >>= f) = f x := rfl

/-- Bind on a raised error propagates it. -/
theorem exceptBind_error {α β : Type} (e : PyErr) (f : α → Except PyErr β) :
    ((Except.error e : Except PyErr α) >>= f) = .error e := rfl

/-- In-range subscripts succeed. -/
theorem pyIdx_ok {α : Type} (l : List α) (i : ℕ) (h : i < l.length) :
    pyIdx l i = .ok l[i] :=
  dif_pos h

/-- `mapE` succeeds whenever `f` succeeds on every element, with the
output list as long as the input and every output satisfying the carried
invariant. -/
theorem mapE_ok {α β : Type} (f : α → Except PyErr β) (Q : β → Prop) :
    ∀ xs : List α, (∀ x ∈ xs, ∃ y, f x = .ok y ∧ Q y) →
      ∃ ys, mapE f xs = .ok ys ∧ ys.length = xs.length ∧ ∀ y ∈ ys, Q y
  | [], _ => ⟨[], rfl, rfl, by simp⟩
  | x :: xs, h => by
    obtain ⟨y, hy, hQ⟩ := h x (by simp)
    obtain ⟨ys, hys, hlen, hQs⟩ :=
      mapE_ok f Q xs (fun a ha => h a (by simp [ha]))
    refine ⟨y :: ys, ?_, by simp [hlen], ?_⟩
    · simp [mapE, hy, hys, exceptBind_ok]
    · intro z hz
      rcases List.mem_cons.mp hz with h1 | h2
      · exact h1 ▸ hQ
      · exact hQs z h2

/-- The delta-row walk succeeds whenever the previous array is long
enough for every visited index. -/
theorem deltaRowAux_ok (prev : List ℚ) (ndl : ℕ) :
    ∀ (cur : List ℚ) (i : ℕ), i + cur.length ≤ prev.length →
      ∃ d, deltaRowAux prev ndl i cur = .ok d
  | [], i, _ => ⟨[], by simp [deltaRowAux]⟩
  | v :: rest, 0, h => by
    obtain ⟨d, hd⟩ := deltaRowAux_ok prev ndl rest 1 (by simp at h; omega)
    exact ⟨d, by simp [deltaRowAux, hd]⟩
  | v :: rest, i + 1, h => by
    obtain ⟨d, hd⟩ := deltaRowAux_ok prev ndl rest (i + 2) (by simp at h; omega)
    by_cases hc : i % ndl = 0
    · exact ⟨v :: d, by simp [deltaRowAux, hc, hd, exceptBind_ok]⟩
    · have hip : i + 1 < prev.length := by simp at h; omega
      refine ⟨(prev[i + 1] - v) :: d, ?_⟩
      simp [deltaRowAux, hc, hd, pyIdx_ok prev (i + 1) hip, exceptBind_ok]

/-- The outer delta loop succeeds on rows of a common length, producing
one delta row per input row. -/
theorem calcDeltasGo_ok (ndl L : ℕ) :
    ∀ (rows : List (List ℚ)) (prev : List ℚ), prev.length = L →
      (∀ r ∈ rows, r.length = L) →
      ∃ ds, calcDeltasGo ndl prev rows = .ok ds ∧ ds.length = rows.length
  | [], _, _, _ => ⟨[], rfl, rfl⟩
  | cur :: rest, prev, hp, hr => by
    have hcur : cur.length = L := hr cur (by simp)
    obtain ⟨d, hd⟩ := deltaRowAux_ok prev ndl cur 0 (by omega)
    obtain ⟨ds, hds, hlen⟩ :=
      calcDeltasGo_ok ndl L rest cur hcur (fun r h => hr r (by simp [h]))
    exact ⟨d :: ds, by simp [calcDeltasGo, hd, hds, exceptBind_ok],
      by simp [hlen]⟩

/-- `calculate_deltas` succeeds on a nonempty layer whose recorded arrays
all have a common length, producing one delta row per time step. -/
theorem calculate_deltas_ok (mode : Mode) (L : ℕ) (rows : List (List ℚ))
    (hne : rows ≠ []) (hr : ∀ r ∈ rows, r.length = L) :
    ∃ ds, calculate_deltas mode rows = .ok ds ∧ ds.length = rows.length := by
  rcases rows with _ | ⟨r0, rest⟩
  · exact absurd rfl hne
  · obtain ⟨ds, hds, hlen⟩ :=
      calcDeltasGo_ok mode.neuronDataLength L (r0 :: rest) r0
        (hr r0 (by simp)) hr
    exact ⟨ds, by simp [calculate_deltas, hds], hlen⟩

/-- `__zip_delta_array` succeeds on a nonempty rectangular delta array,
producing `T * num_layers` entries (`T` = time steps per layer). -/
theorem zip_delta_array_ok (n T : ℕ) (da : List (List (List ℚ)))
    (hdan : da.length = n) (hne : 0 < n) (hT : ∀ d ∈ da, d.length = T) :
    ∃ z, zip_delta_array n da = .ok z ∧ z.length = T * n := by
  rcases da with _ | ⟨d0, rest⟩
  · rw [List.length_nil] at hdan
    omega
  · have hd0T : d0.length = T := hT d0 (by simp)
    have helem : ∀ i ∈ List.range (d0.length * n),
        ∃ y, (do
            let layer ← pyIdx (d0 :: rest) (i % n)
            pyIdx layer (i / n)) = Except.ok y ∧ True := by
      intro i hi
      rw [List.mem_range] at hi
      have hmod : i % n < (d0 :: rest).length := by
        rw [hdan]
        exact Nat.mod_lt _ hne
      have hTi : (d0 :: rest)[i % n].length = T :=
        hT _ (List.getElem_mem hmod)
      have hiT : i < T * n := by rw [hd0T] at hi; exact hi
      have hdiv : i / n < (d0 :: rest)[i % n].length := by
        rw [hTi]
        exact (Nat.div_lt_iff_lt_mul hne).mpr hiT
      refine ⟨(d0 :: rest)[i % n][i / n], ?_, trivial⟩
      rw [pyIdx_ok (d0 :: rest) (i % n) hmod, exceptBind_ok]
      exact pyIdx_ok ((d0 :: rest)[i % n]) (i / n) hdiv
    obtain ⟨z, hz, hzlen, -⟩ :=
      mapE_ok _ (fun _ => True) (List.range (d0.length * n)) helem
    refine ⟨z, ?_, ?_⟩
    · simp [zip_delta_array, hz]
    · rw [hzlen, List.length_range, hd0T]

/-- Two-target unpacking of any list whose length is not 2 raises
`ValueError`. -/
theorem unpackPair_len_ne_two {α : Type} :
    ∀ z : List α, z.length ≠ 2 → unpackPair z = .error .valueError
  | [], _ => rfl
  | [_], _ => rfl
  | [_, _], h => absurd rfl h
  | _ :: _ :: _ :: _, _ => rfl

end DMC.NeuronParse

namespace DMC.NeuronParse

/-- C9 (amended): for every parsed input with at least one layer, at
least one recorded time step per layer (a common count `T`), and
rectangular rows, whenever the zipped delta list's length
`T * num_layers` is not exactly 2, the delta stage stops at the
two-target tuple unpacking with a `ValueError`, before the JSON output
file is written.  (The empty input — e.g. an empty capture file — instead
raises `IndexError` at `delta_array[0]`, so the claim's universal
quantification over all inputs fails; see the counterexample.) -/
theorem c9_theorem (mode : Mode) (l0 : List (List ℚ))
    (rest : List (List (List ℚ))) (T L : ℕ)
    (hT : 1 ≤ T)
    (hlen : ∀ l ∈ l0 :: rest, l.length = T)
    (hrow : ∀ l ∈ l0 :: rest, ∀ r ∈ l, r.length = L)
    (hprod : T * (l0 :: rest).length ≠ 2) :
    list_of_arrays_to_delta mode (l0 :: rest) = .error .valueError := by
  have helem : ∀ l ∈ l0 :: rest,
      ∃ d, calculate_deltas mode l = .ok d ∧ d.length = T := by
    intro l hl
    have h1 : l.length = T := hlen l hl
    have hne : l ≠ [] := by
      intro he
      rw [he, List.length_nil] at h1
      omega
    obtain ⟨ds, hds, hdl⟩ := calculate_deltas_ok mode L l hne (hrow l hl)
    exact ⟨ds, hds, by rw [hdl, h1]⟩
  obtain ⟨da, hda, hdalen, hdaT⟩ :=
    mapE_ok (calculate_deltas mode) (fun d => d.length = T) (l0 :: rest) helem
  obtain ⟨z, hz, hzlen⟩ :=
    zip_delta_array_ok (l0 :: rest).length T da hdalen (by simp) hdaT
  have : list_of_arrays_to_delta mode (l0 :: rest) = unpackPair z := by
    simp only [list_of_arrays_to_delta, hda, exceptBind_ok, hz]
  rw [this]
  exact unpackPair_len_ne_two z (by rw [hzlen]; exact hprod)

/-- C9 (witness): a single layer with three recorded time steps of two
values each (zipped length 3 ≠ 2) makes the delta stage raise
`ValueError`. -/
theorem c9_witness :
    list_of_arrays_to_delta Mode.p [[[1, 2], [3, 4], [5, 6]]]
      = .error .valueError :=
  c9_theorem Mode.p [[1, 2], [3, 4], [5, 6]] [] 3 2 (by decide)
    (by decide) (by decide) (by decide)

/-- C9 (counterexample): the empty parsed input (produced by an empty
capture file) has `time steps * layers = 0 ≠ 2`, yet the delta stage
raises `IndexError` (at `len(delta_array[0])` inside `__zip_delta_array`),
not the `ValueError` the claim asserts for every such input. -/
theorem c9_counterexample :
    list_of_arrays_to_delta Mode.p ([] : List (List (List ℚ)))
        = .error .indexError ∧
    PyErr.indexError ≠ PyErr.valueError :=
  ⟨rfl, by decide⟩

end DMC.NeuronParse

namespace DMC

/-! ## Bookkeeping lemmas for the experiment model -/

/-- The book component of one experiment step is one hook pair. -/
theorem expStep_book (nudge : Bool) (s : ExpState) :
    (expStep nudge s).book = bookStep s.book := rfl

/-- The mid-run output nudge leaves the bookkeeping unchanged. -/
theorem expNudgeOutput_book (s : ExpState) :
    (expNudgeOutput s).book = s.book := rfl

/-- The freshly built experiment carries the freshly seeded book. -/
theorem initExpState_book (wtSeed labelSeed : ℕ) :
    (initExpState wtSeed labelSeed).book = initBook labelSeed := rfl

/-- Iterating experiment steps iterates the hook pairs on the book. -/
theorem expIter_book (nudge : Bool) : ∀ (m : ℕ) (s : ExpState),
    ((expStep nudge)^[m] s).book = bookStep^[m] s.book
  | 0, _ => rfl
  | m + 1, s => by
    rw [Function.iterate_succ_apply, Function.iterate_succ_apply,
      expIter_book nudge m (expStep nudge s), expStep_book]

/-- The bookkeeping of a full run is `sps + ts` hook pairs on the seeded
initial book. -/
theorem runAndOr_book (wtSeed labelSeed sps ts : ℕ) :
    (runAndOr wtSeed labelSeed sps ts).book = runBook labelSeed sps ts := by
  rw [runAndOr, runBook, expIter_book, expNudgeOutput_book, expIter_book,
    initExpState_book, ← Function.iterate_add_apply, Nat.add_comm]

/-- One hook pair advances the step counter by one. -/
theorem bookStep_currentStep (b : Book) :
    (bookStep b).currentStep = b.currentStep + 1 := rfl

/-- The nudge positions are overwritten with the current counts exactly
when the incremented step counter reads 400. -/
theorem bookStep_nudgeSteps (b : Book) :
    (bookStep b).nudgeSteps
      = if b.currentStep + 1 = 400 then b.counts else b.nudgeSteps := rfl

/-- The step counter counts the completed steps. -/
theorem bookIter_currentStep (b : Book) : ∀ m : ℕ,
    (bookStep^[m] b).currentStep = b.currentStep + m
  | 0 => rfl
  | m + 1 => by
    rw [Function.iterate_succ_apply', bookStep_currentStep,
      bookIter_currentStep b m, Nat.add_assoc]

/-- The nudge positions after `m` steps: the initial zeros below 400
completed steps, and from the 400th step on frozen at the per-sample
counts recorded after 399 steps. -/
theorem bookIter_nudgeSteps (labelSeed : ℕ) : ∀ m : ℕ,
    (bookStep^[m] (initBook labelSeed)).nudgeSteps
      = if 400 ≤ m then countsAfter labelSeed 399 else [0, 0, 0, 0]
  | 0 => by rw [if_neg (by omega)]; rfl
  | m + 1 => by
    have hcs : (initBook labelSeed).currentStep = 0 := rfl
    rw [Function.iterate_succ_apply', bookStep_nudgeSteps,
      bookIter_currentStep, bookIter_nudgeSteps labelSeed m, hcs]
    by_cases h : m + 1 = 400
    · have hm : m = 399 := by omega
      subst hm
      rw [if_pos (by omega), if_pos (by omega)]
      rfl
    · rw [if_neg (by omega)]
      by_cases h4 : 400 ≤ m
      · rw [if_pos h4, if_pos (by omega)]
      · rw [if_neg h4, if_neg (by omega)]

end DMC

namespace DMC

/-- C8: the experiment run is a deterministic function of its two seeds:
two runs with the same weight-initialization seed and the same
label-selection seed produce identical full states — in particular the
same per-step record log (drawn sample indices, hence inputs and labels,
plus the recorded membrane potentials) and the same final weight
matrices of both layers. -/
theorem c8_theorem (w1 w2 lb1 lb2 sps ts : ℕ)
    (hw : w1 = w2) (hl : lb1 = lb2) :
    runAndOr w1 lb1 sps ts = runAndOr w2 lb2 sps ts ∧
    (runAndOr w1 lb1 sps ts).log = (runAndOr w2 lb2 sps ts).log ∧
    weightsOf (runAndOr w1 lb1 sps ts).l1
      = weightsOf (runAndOr w2 lb2 sps ts).l1 ∧
    weightsOf (runAndOr w1 lb1 sps ts).l2
      = weightsOf (runAndOr w2 lb2 sps ts).l2 := by
  subst hw
  subst hl
  exact ⟨rfl, rfl, rfl, rfl⟩

/-- C8 (witness): two runs with the default seeds 42/42 and the default
schedule of 400 + 190 steps agree in full. -/
theorem c8_witness :
    runAndOr 42 42 400 190 = runAndOr 42 42 400 190 ∧
    (runAndOr 42 42 400 190).log = (runAndOr 42 42 400 190).log ∧
    weightsOf (runAndOr 42 42 400 190).l1
      = weightsOf (runAndOr 42 42 400 190).l1 ∧
    weightsOf (runAndOr 42 42 400 190).l2
      = weightsOf (runAndOr 42 42 400 190).l2 :=
  c8_theorem 42 42 42 42 400 190 rfl rfl

/-- C10 (amended): the recorded nudge-annotation positions are written
only during the training step whose counter equals the hard-coded
constant 400, never at `self_prediction_steps`: after any run they equal
the per-sample record counts after 399 completed steps whenever at least
400 total steps run, and remain `[0, 0, 0, 0]` when fewer than 400 total
steps run.  They therefore mark the step at which nudging actually
begins only when those counts coincide with the counts after
`self_prediction_steps` steps (e.g. when `self_prediction_steps = 399`),
not in general. -/
theorem c10_theorem (wtSeed labelSeed sps ts : ℕ) :
    (sps + ts < 400 →
      (runAndOr wtSeed labelSeed sps ts).book.nudgeSteps = [0, 0, 0, 0]) ∧
    (400 ≤ sps + ts →
      (runAndOr wtSeed labelSeed sps ts).book.nudgeSteps
        = countsAfter labelSeed 399) := by
  rw [runAndOr_book, runBook, bookIter_nudgeSteps]
  constructor
  · intro h
    rw [if_neg (by omega)]
  · intro h
    rw [if_pos h]

/-- C10 (witness): with seeds 42/42, `self_prediction_steps = 399` and
one nudged step, the recorded positions equal the counts after 399
steps. -/
theorem c10_witness :
    (runAndOr 42 42 399 1).book.nudgeSteps = countsAfter 42 399 :=
  (c10_theorem 42 42 399 1).2 (by decide)

/-- C10 (counterexample): a run with `self_prediction_steps = 399 ≠ 400`
whose recorded positions are exactly the per-sample record counts after
its 399 un-nudged steps — which are precisely the positions at which
nudging actually begins (nudged training starts with step 400, and the
hook copies the counts before that step records anything).  This
contradicts the claim that for every run whose `self_prediction_steps`
differs from 400 the recorded positions do not mark the nudge start. -/
theorem c10_counterexample :
    (runAndOr 7 7 399 1).book.nudgeSteps = countsAfter 7 399 ∧
    (399 : ℕ) ≠ 400 := by
  constructor
  · rw [runAndOr_book, runBook, bookIter_nudgeSteps, if_pos (by omega)]
  · decide

end DMC
